import Mathlib

set_option maxRecDepth 100000
set_option exponentiation.threshold 4000

deriving instance DecidableEq for Except

namespace Embuer

/-!
Shallow embedding of the embuer update service (NeroReflex/embuer).

Each section embeds one part of the Rust sources:
byte and hex helpers model the hex / BigUint primitives used by the
signature verifier, then each component (signature verifier, hashing
reader, config parsing, changelog version extraction, install pipeline,
garbage collection, scheduler, periodic poller) is translated into an
executable Lean definition that mirrors the control flow of the source.
-/

/-- Error type mirroring the shape of ServiceError in src/lib.rs.
Only the constructors the modelled code paths can produce are kept;
message strings are carried verbatim where the claims need them. -/
inductive ServiceError
  | ioError (msg : String)
  | noUpdateAvailable
  | btrfsError (msg : String)
  | pubKeyImportError
  deriving DecidableEq, Repr

/-- Big-endian base-256 digits of a natural number, at a fixed width in
bytes (left-padded with zeros); structural recursion on the width so the
kernel can evaluate it. -/
def toBytesBeFixed : Nat → Nat → List Nat
  | 0, _ => []
  | w + 1, v => toBytesBeFixed w (v / 256) ++ [v % 256]

/-- Drop leading zero bytes. -/
def stripLeadingZeros : List Nat → List Nat
  | [] => []
  | b :: bs => if b = 0 then stripLeadingZeros bs else b :: bs

/-- Bit length with explicit fuel (the fuel only needs to exceed the bit
length, and the value itself always does). -/
def bitsAux : Nat → Nat → Nat
  | 0, _ => 0
  | fuel + 1, v => if v = 0 then 0 else bitsAux fuel (v / 2) + 1

/-- Model of BigUint::bits: 0 for 0, otherwise floor(log2 v) + 1. -/
def natBits (v : Nat) : Nat := bitsAux v v

/-- Model of BigUint::to_bytes_be: minimal big-endian bytes, [0] for 0. -/
def toBytesBeMin (v : Nat) : List Nat :=
  if v = 0 then [0] else stripLeadingZeros (toBytesBeFixed ((natBits v + 7) / 8) v)

/-- Model of BigUint::from_bytes_be. -/
def fromBytesBe (bs : List Nat) : Nat := bs.foldl (fun acc b => acc * 256 + b) 0

/-- Model of BigUint::modpow (the Rust call panics for modulus 0; every
caller in the sources passes the nonzero RSA modulus). -/
def modpow (b e n : Nat) : Nat := b ^ e % n

/-- Value of one hex digit character, as accepted by hex::decode. -/
def hexDigitVal (c : Char) : Option Nat :=
  if '0' ≤ c ∧ c ≤ '9' then some (c.toNat - '0'.toNat)
  else if 'a' ≤ c ∧ c ≤ 'f' then some (c.toNat - 'a'.toNat + 10)
  else if 'A' ≤ c ∧ c ≤ 'F' then some (c.toNat - 'A'.toNat + 10)
  else none

/-- Model of hex::decode over a character list: fails on odd length or a
non-hex character. -/
def hexDecodeList : List Char → Option (List Nat)
  | [] => some []
  | [_] => none
  | c1 :: c2 :: rest => do
      let hi ← hexDigitVal c1
      let lo ← hexDigitVal c2
      let tail ← hexDecodeList rest
      pure ((hi * 16 + lo) :: tail)

/-- Model of hex::decode on a Rust string. -/
def hexDecode (s : String) : Option (List Nat) := hexDecodeList s.data

/-- The fixed SHA-512 DigestInfo byte sequence from src/src/core.rs. -/
def sha512DigestInfo : List Nat :=
  [0x30, 0x51, 0x30, 0x0d, 0x06, 0x09, 0x60, 0x86, 0x48, 0x01, 0x65,
   0x03, 0x04, 0x02, 0x03, 0x05, 0x00, 0x04, 0x40]

/-- The while loop of verify_signature that skips the 0xFF padding run:
starting from index 2, advance while the byte is 0xFF. Fuel-based with
fuel = list length, which bounds the number of steps. -/
def findSepIdxAux (padded : List Nat) : Nat → Nat → Nat
  | 0, i => i
  | fuel + 1, i =>
      if i < padded.length ∧ padded.getD i 0 = 0xFF then
        findSepIdxAux padded fuel (i + 1)
      else i

/-- Index of the first non-0xFF byte at or after position 2. -/
def findSepIdx (padded : List Nat) : Nat := findSepIdxAux padded padded.length 2

/-- Embedding of verify_signature (src/src/core.rs lines 16-152), with the
public key split into its components n and e (rsa::RsaPublicKey exposes
exactly these through PublicKeyParts).  The control flow mirrors the
source line by line; in particular a DigestInfo mismatch at digest_start
is only logged by the source (debug! / warn!) and does NOT return an
error, so this embedding has no branch on it either. -/
def verify_signature (n e : Nat) (signature_bytes : List Nat) (hash_hex : String) :
    Except ServiceError Unit :=
  match hexDecode hash_hex with
  | none => .error (.ioError "Failed to decode hash hex string")
  | some hash_bytes =>
    let key_size := (natBits n + 7) / 8
    if signature_bytes.length ≠ key_size then
      .error (.ioError "Signature length does not match key size")
    else
      let signature_biguint := fromBytesBe signature_bytes
      let padded := modpow signature_biguint e n
      let padded_bytes0 := toBytesBeMin padded
      -- full_padded = key_size zero bytes with padded_bytes copied at the end
      let offset := key_size - padded_bytes0.length
      let padded_bytes := List.replicate offset 0 ++ padded_bytes0
      if padded_bytes.length < 19 + hash_bytes.length then
        .error (.ioError "Invalid signature: decrypted value too short")
      else if padded_bytes.getD 0 0 ≠ 0x00 ∨ padded_bytes.getD 1 0 ≠ 0x01 then
        .error (.ioError "Invalid signature: missing PKCS#1 v1.5 padding prefix")
      else
        let sep_idx := findSepIdx padded_bytes
        if sep_idx ≥ padded_bytes.length ∨ padded_bytes.getD sep_idx 0 ≠ 0x00 then
          .error (.ioError "Invalid signature: missing separator after padding")
        else
          let digest_start := sep_idx + 1
          if digest_start + sha512DigestInfo.length + hash_bytes.length > padded_bytes.length then
            .error (.ioError "Invalid signature: not enough data for DigestInfo and hash")
          else
            -- found_digest_info is compared against sha512DigestInfo in the
            -- source, but a mismatch is only logged, never an error.
            let hash_start := digest_start + sha512DigestInfo.length
            if hash_start + hash_bytes.length > padded_bytes.length then
              .error (.ioError "Invalid signature: not enough data for hash")
            else
              let extracted_hash := (padded_bytes.drop hash_start).take hash_bytes.length
              if extracted_hash ≠ hash_bytes then
                .error (.ioError "Invalid signature: hash mismatch")
              else
                .ok ()

/-- The decrypted, left-padded message a given (n, e, signature) triple
produces inside verify_signature; exposed so theorems can talk about the
DigestInfo slot the verifier inspects. -/
def paddedMessage (n e : Nat) (signature_bytes : List Nat) : List Nat :=
  let key_size := (natBits n + 7) / 8
  let padded := modpow (fromBytesBe signature_bytes) e n
  let padded_bytes0 := toBytesBeMin padded
  List.replicate (key_size - padded_bytes0.length) 0 ++ padded_bytes0

/-- The 19-byte DigestInfo slot of the decrypted message (the bytes the
source compares against sha512DigestInfo). -/
def foundDigestInfo (n e : Nat) (signature_bytes : List Nat) : List Nat :=
  let padded_bytes := paddedMessage n e signature_bytes
  let digest_start := findSepIdx padded_bytes + 1
  (padded_bytes.drop digest_start).take sha512DigestInfo.length

/-- Concrete forged signature for claim C2: the big-endian encoding of
2^224 in 86 bytes (the key size of the 688-bit modulus 2^687 + 1).
Its cube is 2^672, whose 86-byte encoding is 00 01 00 followed by 83 zero
bytes: prefix valid, empty 0xFF run, separator 0x00 at index 2, then a
19-byte DigestInfo slot of zeros and 64 zero hash bytes. -/
def c2Signature : List Nat := List.replicate 57 0 ++ [1] ++ List.replicate 28 0

/-- Hex encoding of the 64 zero bytes supplied as the SHA-512 digest. -/
def c2HashHex : String :=
  String.mk (List.replicate 128 '0')

/-- Claim C2 failing input: verify_signature accepts this signature even
though the DigestInfo slot of the decrypted message (19 zero bytes) is
not the fixed SHA-512 DigestInfo sequence — the source only logs the
mismatch. -/
theorem c2_digestinfo_mismatch_accepted :
    verify_signature (2 ^ 687 + 1) 3 c2Signature c2HashHex = .ok () ∧
    foundDigestInfo (2 ^ 687 + 1) 3 c2Signature ≠ sha512DigestInfo := by
  constructor
  · decide
  · decide

/-!
## Changelog version extraction (src/src/service.rs lines 84-104)

Rust strings are modelled as their character lists; the Unicode-aware
character classes (char::is_whitespace, char::is_alphanumeric) are
modelled on their ASCII fragment, which covers every input below and
every changelog the tests use.
-/

/-- ASCII fragment of char::is_whitespace (as used by str::trim). -/
def rustIsWhitespace (c : Char) : Bool :=
  c = ' ' || c = '\t' || c = '\n' || c = '\r' || c.toNat = 0x0b || c.toNat = 0x0c

/-- ASCII fragment of char::is_alphanumeric. -/
def rustIsAlphanumeric (c : Char) : Bool :=
  c.isAlpha || c.isDigit

/-- Model of str::trim on a character list. -/
def rustTrim (s : List Char) : List Char :=
  ((s.dropWhile rustIsWhitespace).reverse.dropWhile rustIsWhitespace).reverse

/-- Model of str::split_once: split around the first occurrence of the
pattern, returning the parts before and after it. -/
def splitOnceList (pat : List Char) : List Char → Option (List Char × List Char)
  | [] => if pat.isEmpty then some ([], []) else none
  | c :: rest =>
      if pat.isPrefixOf (c :: rest) then some ([], (c :: rest).drop pat.length)
      else
        match splitOnceList pat rest with
        | some (pre, post) => some (c :: pre, post)
        | none => none

/-- Model of str::lines: split at newline characters, with no trailing
empty line, and a carriage return before each newline stripped. -/
def splitNewlines : List Char → List (List Char)
  | [] => [[]]
  | c :: rest =>
      if c = '\n' then [] :: splitNewlines rest
      else
        match splitNewlines rest with
        | [] => [[c]]
        | l :: ls => (c :: l) :: ls

/-- Drop one trailing carriage return, as str::lines does for each line. -/
def dropTrailingCr (l : List Char) : List Char :=
  match l.getLast? with
  | some c => if c = '\r' then l.dropLast else l
  | none => l

/-- Model of str::lines on a character list. -/
def rustLines (s : List Char) : List (List Char) :=
  let parts := splitNewlines s
  let parts := if parts.getLast? = some [] then parts.dropLast else parts
  parts.map dropTrailingCr

/-- The dotted-triple test of the source: the trimmed line has exactly two
dot characters and every character is alphanumeric or a dot. -/
def isDottedTriple (trimmed : List Char) : Bool :=
  trimmed.count '.' = 2 && trimmed.all (fun c => rustIsAlphanumeric c || c = '.')

/-- The body of the for loop of extract_version_from_changelog: the three
per-line checks with early return, in source order. -/
def extractVersionGo : List (List Char) → List Char
  | [] => "unknown".data
  | line :: rest =>
      match splitOnceList "Version ".data line with
      | some (_, version) => rustTrim version
      | none =>
          match splitOnceList "v".data line with
          | some (_, version) => rustTrim version
          | none =>
              let trimmed := rustTrim line
              if isDottedTriple trimmed then trimmed
              else extractVersionGo rest

/-- Embedding of extract_version_from_changelog (src/src/service.rs lines
84-104): inspect the first ten lines; per line try the Version-prefix
split, then the split at the first letter v, then the dotted-triple test;
fall back to the literal unknown. -/
def extract_version_from_changelog (changelog : String) : String :=
  String.mk (extractVersionGo ((rustLines changelog.data).take 10))

/-- Index of the first position where the pattern occurs as a prefix of
the remaining list (used only by the specification-side definitions). -/
def firstMatchIdx (pat : List Char) : List Char → Option Nat
  | [] => if pat.isEmpty then some 0 else none
  | c :: rest =>
      if pat.isPrefixOf (c :: rest) then some 0
      else (firstMatchIdx pat rest).map (· + 1)

/-- Claim C8 wording of the per-line rule: (a) a line containing
"Version " yields what follows it; (b) a line STARTING with v yields the
rest; (c) a dotted triple of alphanumerics yields itself trimmed. -/
def claimedVersionOfLine (line : List Char) : Option (List Char) :=
  match firstMatchIdx "Version ".data line with
  | some i => some (rustTrim (line.drop (i + "Version ".data.length)))
  | none =>
      if "v".data.isPrefixOf line then some (rustTrim (line.drop 1))
      else
        let trimmed := rustTrim line
        if isDottedTriple trimmed then some trimmed else none

/-- Claim C8 as stated: first ten lines, first line matching one of the
three rules wins, otherwise the literal unknown. -/
def extract_version_claimed (changelog : String) : String :=
  match ((rustLines changelog.data).take 10).findSome? claimedVersionOfLine with
  | some v => String.mk v
  | none => "unknown"

/-- Amended wording of rule (b): a line containing the letter v ANYWHERE
yields the part after the first v, trimmed (this is what split_once
does); rules (a) and (c) are unchanged. -/
def amendedVersionOfLine (line : List Char) : Option (List Char) :=
  match firstMatchIdx "Version ".data line with
  | some i => some (rustTrim (line.drop (i + "Version ".data.length)))
  | none =>
      match firstMatchIdx "v".data line with
      | some i => some (rustTrim (line.drop (i + "v".data.length)))
      | none =>
          let trimmed := rustTrim line
          if isDottedTriple trimmed then some trimmed else none

/-- Claim C8 as amended: rule (b) fires on a line containing v anywhere. -/
def extract_version_amended (changelog : String) : String :=
  match ((rustLines changelog.data).take 10).findSome? amendedVersionOfLine with
  | some v => String.mk v
  | none => "unknown"

/-- The per-line body of the source loop, as an Option-valued classifier
(some v = early return with v, none = fall through to the next line). -/
def goLine (line : List Char) : Option (List Char) :=
  match splitOnceList "Version ".data line with
  | some (_, version) => some (rustTrim version)
  | none =>
      match splitOnceList "v".data line with
      | some (_, version) => some (rustTrim version)
      | none =>
          let trimmed := rustTrim line
          if isDottedTriple trimmed then some trimmed else none

theorem extractVersionGo_eq_findSome (lines : List (List Char)) :
    extractVersionGo lines =
      match lines.findSome? goLine with
      | some v => v
      | none => "unknown".data := by
  induction lines with
  | nil => rfl
  | cons line rest ih =>
      simp only [extractVersionGo, List.findSome?, goLine]
      cases hv : splitOnceList "Version ".data line with
      | some p => cases p; rfl
      | none =>
          cases hw : splitOnceList "v".data line with
          | some p => cases p; rfl
          | none =>
              by_cases hd : isDottedTriple (rustTrim line)
              · simp [hd]
              · simp [hd, ih]

/-- split_once agrees with the first-match index formulation: it returns
exactly the part before the first occurrence of the pattern and the part
after it. -/
theorem splitOnce_eq_firstMatch (pat : List Char) (l : List Char) :
    splitOnceList pat l =
      (firstMatchIdx pat l).map (fun i => (l.take i, l.drop (i + pat.length))) := by
  induction l with
  | nil =>
      by_cases h : pat.isEmpty
      · simp [splitOnceList, firstMatchIdx, h]
      · simp [splitOnceList, firstMatchIdx, h]
  | cons c rest ih =>
      by_cases h : pat.isPrefixOf (c :: rest)
      · simp [splitOnceList, firstMatchIdx, h]
      · simp only [splitOnceList, firstMatchIdx, h, if_false, Bool.false_eq_true]
        rw [ih]
        cases hf : firstMatchIdx pat rest with
        | none => simp
        | some i =>
            simp only [Option.map_some, Option.map_map, Function.comp]
            have hdrop : (c :: rest).drop (i + 1 + pat.length) = rest.drop (i + pat.length) := by
              have : i + 1 + pat.length = (i + pat.length) + 1 := by omega
              rw [this, List.drop_succ_cons]
            simp [hdrop]

/-- The per-line classifier of the source equals the amended
specification classifier on every line. -/
theorem goLine_eq_amended (line : List Char) : goLine line = amendedVersionOfLine line := by
  simp only [goLine, amendedVersionOfLine,
    splitOnce_eq_firstMatch "Version ".data line, splitOnce_eq_firstMatch "v".data line]
  cases firstMatchIdx "Version ".data line with
  | some i => rfl
  | none =>
      cases firstMatchIdx "v".data line with
      | some i => rfl
      | none => rfl

/-- Claim C8 (amended): extract_version_from_changelog inspects only the
first ten lines and returns the first match of (a) text after
"Version ", (b) text after the first letter v ANYWHERE in the line,
trimmed, or (c) a dotted triple of alphanumerics; else "unknown". -/
theorem c8_extract_version_amended_correct (changelog : String) :
    extract_version_from_changelog changelog = extract_version_amended changelog := by
  unfold extract_version_from_changelog extract_version_amended
  rw [extractVersionGo_eq_findSome]
  have : ∀ lines : List (List Char), lines.findSome? goLine = lines.findSome? amendedVersionOfLine := by
    intro lines
    induction lines with
    | nil => rfl
    | cons l rest ih => simp [List.findSome?, goLine_eq_amended, ih]
  rw [this]
  cases ((rustLines changelog.data).take 10).findSome? amendedVersionOfLine with
  | some v => rfl
  | none => rfl

/-- Claim C8 counterexample: on a line that merely CONTAINS the letter v
(here inside the word have), the source returns the text after that v,
while the claim as stated (line starting with v) would fall through to
"unknown". -/
theorem c8_counterexample :
    extract_version_from_changelog "have a nice day" = "e a nice day" ∧
    extract_version_claimed "have a nice day" = "unknown" := by
  constructor
  · decide
  · decide

/-!
## Configuration parsing (src/src/config.rs lines 7-31)

Config derives serde Deserialize with no field attributes, so the derived
deserializer is modelled: Option fields default to None when absent,
the plain bool field auto_install_updates is required, a repeated field
is a duplicate-field error, an ill-typed value is a type error, and
unknown fields are ignored.  JSON text parsing (serde_json) is modelled
at the level of the parsed JSON object: a list of key/value entries in
document order.
-/

/-- JSON values as far as the Config deserializer distinguishes them:
null, booleans and strings are handled; numbers, arrays and nested
objects are all rejected by every Config field, so they are one bucket. -/
inductive JVal
  | null
  | jbool (b : Bool)
  | jstr (s : String)
  | otherVal
  deriving DecidableEq

/-- Deserialization errors (serde_json error kinds the derived code can
produce at this level). -/
inductive DeError
  | missingField (name : String)
  | duplicateField (name : String)
  | invalidType (field : String)
  deriving DecidableEq

/-- The Config record (src/src/config.rs lines 7-16). -/
structure Config where
  update_url : Option String
  auto_install_updates : Bool
  public_key_pem : Option String
  rootfs_dir : Option String
  deriving DecidableEq

/-- In-progress slots of the derived Deserialize implementation: each
field is tracked as absent or already seen. -/
structure ConfigSlots where
  update_url : Option (Option String)
  auto_install_updates : Option Bool
  public_key_pem : Option (Option String)
  rootfs_dir : Option (Option String)

/-- Visit a value for an Option String field: null becomes None, a
string becomes Some, anything else is a type error. -/
def visitOptString (field : String) : JVal → Except DeError (Option String)
  | .null => .ok none
  | .jstr s => .ok (some s)
  | _ => .error (.invalidType field)

/-- Visit a value for the bool field. -/
def visitBool (field : String) : JVal → Except DeError Bool
  | .jbool b => .ok b
  | _ => .error (.invalidType field)

/-- Process one map entry of the JSON object, mirroring the derived
visit_map loop: known keys fill their slot (erroring on a duplicate),
unknown keys are ignored. -/
def configStep (slots : ConfigSlots) (k : String) (v : JVal) : Except DeError ConfigSlots :=
  if k = "update_url" then
    match slots.update_url with
    | some _ => .error (.duplicateField "update_url")
    | none => (visitOptString "update_url" v).map fun x => { slots with update_url := some x }
  else if k = "auto_install_updates" then
    match slots.auto_install_updates with
    | some _ => .error (.duplicateField "auto_install_updates")
    | none => (visitBool "auto_install_updates" v).map fun x =>
        { slots with auto_install_updates := some x }
  else if k = "public_key_pem" then
    match slots.public_key_pem with
    | some _ => .error (.duplicateField "public_key_pem")
    | none => (visitOptString "public_key_pem" v).map fun x =>
        { slots with public_key_pem := some x }
  else if k = "rootfs_dir" then
    match slots.rootfs_dir with
    | some _ => .error (.duplicateField "rootfs_dir")
    | none => (visitOptString "rootfs_dir" v).map fun x => { slots with rootfs_dir := some x }
  else
    .ok slots

/-- End of the map: Option fields default to None; the bool field is
required and its absence is a missing-field error. -/
def configFinish (slots : ConfigSlots) : Except DeError Config :=
  match slots.auto_install_updates with
  | none => .error (.missingField "auto_install_updates")
  | some b =>
      .ok { update_url := slots.update_url.getD none
            auto_install_updates := b
            public_key_pem := slots.public_key_pem.getD none
            rootfs_dir := slots.rootfs_dir.getD none }

/-- The visit_map loop over the object entries. -/
def configDeserAux (slots : ConfigSlots) : List (String × JVal) → Except DeError Config
  | [] => configFinish slots
  | (k, v) :: rest =>
      match configStep slots k v with
      | .error e => .error e
      | .ok slots2 => configDeserAux slots2 rest

/-- Model of Config::new / serde_json deserialization of Config from a
parsed JSON object. -/
def config_from_json (entries : List (String × JVal)) : Except DeError Config :=
  configDeserAux ⟨none, none, none, none⟩ entries

theorem configStep_preserves_auto (slots slots2 : ConfigSlots) (k : String) (v : JVal)
    (hk : k ≠ "auto_install_updates") (h : configStep slots k v = .ok slots2) :
    slots2.auto_install_updates = slots.auto_install_updates := by
  unfold configStep at h
  by_cases h1 : k = "update_url"
  · simp only [h1, if_true] at h
    cases hs : slots.update_url with
    | some _ => rw [hs] at h; exact absurd h (by simp)
    | none =>
        rw [hs] at h
        cases hv : visitOptString "update_url" v with
        | error e => rw [hv] at h; exact absurd h (by simp [Except.map])
        | ok x => rw [hv] at h; simp [Except.map] at h; rw [← h]
  · simp only [h1, if_false] at h
    rw [if_neg hk] at h
    by_cases h3 : k = "public_key_pem"
    · simp only [h3, if_true] at h
      cases hs : slots.public_key_pem with
      | some _ => rw [hs] at h; exact absurd h (by simp)
      | none =>
          rw [hs] at h
          cases hv : visitOptString "public_key_pem" v with
          | error e => rw [hv] at h; exact absurd h (by simp [Except.map])
          | ok x => rw [hv] at h; simp [Except.map] at h; rw [← h]
    · simp only [h3, if_false] at h
      by_cases h4 : k = "rootfs_dir"
      · simp only [h4, if_true] at h
        cases hs : slots.rootfs_dir with
        | some _ => rw [hs] at h; exact absurd h (by simp)
        | none =>
            rw [hs] at h
            cases hv : visitOptString "rootfs_dir" v with
            | error e => rw [hv] at h; exact absurd h (by simp [Except.map])
            | ok x => rw [hv] at h; simp [Except.map] at h; rw [← h]
      · simp only [h4, if_false] at h
        simp at h
        rw [← h]

theorem configDeserAux_missing_auto (entries : List (String × JVal)) :
    ∀ slots : ConfigSlots, slots.auto_install_updates = none →
    (∀ kv ∈ entries, kv.1 ≠ "auto_install_updates") →
    (configDeserAux slots entries).isOk = false := by
  induction entries with
  | nil =>
      intro slots hauto _
      simp [configDeserAux, configFinish, hauto, Except.isOk, Except.toBool]
  | cons kv rest ih =>
      intro slots hauto hk
      cases kv with
      | mk k v =>
          simp only [configDeserAux]
          cases hstep : configStep slots k v with
          | error e => simp [Except.isOk, Except.toBool]
          | ok slots2 =>
              have hk1 : k ≠ "auto_install_updates" := by
                have := hk (k, v) (by simp)
                simpa using this
              have h2 : slots2.auto_install_updates = none := by
                rw [configStep_preserves_auto slots slots2 k v hk1 hstep, hauto]
              exact ih slots2 h2 (fun kv2 hm => hk kv2 (by simp [hm]))

/-- Claim C10: a JSON object may omit any of update_url, public_key_pem
and rootfs_dir (they deserialize to None), but every object that lacks
the auto_install_updates key fails to deserialize. -/
theorem c10_config_requires_auto_install :
    (∀ entries : List (String × JVal),
        (∀ kv ∈ entries, kv.1 ≠ "auto_install_updates") →
        (config_from_json entries).isOk = false) ∧
    (∀ b : Bool,
        config_from_json [("auto_install_updates", .jbool b)] =
          .ok { update_url := none, auto_install_updates := b,
                public_key_pem := none, rootfs_dir := none }) := by
  constructor
  · intro entries h
    exact configDeserAux_missing_auto entries ⟨none, none, none, none⟩ rfl h
  · intro b
    cases b <;> rfl

/-- Witness for claim C10 at concrete inputs: an object carrying only
the three optional fields is rejected, and a minimal object with just
auto_install_updates parses with the optional fields absent. -/
theorem c10_config_requires_auto_install_witness :
    (config_from_json
        [("update_url", .jstr "http:u"), ("public_key_pem", .null), ("rootfs_dir", .jstr "/")]).isOk
      = false ∧
    config_from_json [("auto_install_updates", .jbool true)] =
      .ok { update_url := none, auto_install_updates := true,
            public_key_pem := none, rootfs_dir := none } :=
  ⟨c10_config_requires_auto_install.1 _ (by decide), c10_config_requires_auto_install.2 true⟩

/-!
## Hashing reader (src/src/hash_stream.rs)

The Sha512 hasher state is modelled by the byte sequence it has absorbed
(incremental hashing is a function of exactly that sequence), and the
shared slot stores, when published, the byte sequence whose hex-encoded
SHA-512 digest was written (so slot = some bs models
hash_result = Some(hex(sha512(bs)))).  One poll_read call is one step; a
poll delivers the result of the inner source unchanged.
-/

/-- One result of polling the inner source: Ready(Ok) with the chunk of
newly filled bytes (empty chunk = EOF), Ready(Err), or Pending. -/
inductive PollResult
  | chunk (bytes : List Nat)
  | readErr
  | pending
  deriving DecidableEq

/-- State of a HashingReader: the bytes absorbed by the hasher, the
shared slot, and how many times finalize_hash has run (the slot content
is always the hash input of the LAST finalize). -/
structure HashingReaderState where
  hasher : List Nat
  slot : Option (List Nat)
  finalizeCount : Nat
  deriving DecidableEq

/-- Fresh reader (HashingReader::new). -/
def hashingReaderNew : HashingReaderState := ⟨[], none, 0⟩

/-- finalize_hash (src/src/hash_stream.rs lines 64-70): swap in a fresh
hasher, publish the hex digest of what the old hasher absorbed.  The
model has no concurrent lock holder, so try_write always succeeds. -/
def finalize_hash (s : HashingReaderState) : HashingReaderState :=
  { hasher := [], slot := some s.hasher, finalizeCount := s.finalizeCount + 1 }

/-- poll_read (src/src/hash_stream.rs lines 73-113): deliver the inner
result unchanged; on Ready(Ok) absorb any newly read bytes and finalize
when nothing new was read (EOF); on Ready(Err) finalize what was seen;
on Pending do nothing. -/
def hashingReaderPollRead (s : HashingReaderState) (r : PollResult) :
    HashingReaderState × PollResult :=
  match r with
  | .chunk bytes =>
      if bytes.isEmpty then (finalize_hash s, r)
      else ({ s with hasher := s.hasher ++ bytes }, r)
  | .readErr => (finalize_hash s, r)
  | .pending => (s, r)

/-- Run the reader over a sequence of inner poll results; returns the
final state and the results delivered downstream. -/
def hashingReaderRun (s : HashingReaderState) : List PollResult → HashingReaderState × List PollResult
  | [] => (s, [])
  | r :: rest =>
      let (s2, out) := hashingReaderPollRead s r
      let (s3, outs) := hashingReaderRun s2 rest
      (s3, out :: outs)

/-- All states the reader passes through (observable between polls),
including the initial and final state. -/
def hashingReaderStates (s : HashingReaderState) : List PollResult → List HashingReaderState
  | [] => [s]
  | r :: rest => s :: hashingReaderStates (hashingReaderPollRead s r).1 rest

/-- Bytes delivered downstream by a sequence of poll results. -/
def deliveredBytes : List PollResult → List Nat
  | [] => []
  | .chunk bytes :: rest => bytes ++ deliveredBytes rest
  | _ :: rest => deliveredBytes rest

/-- Claim C3 counterexample: polling the reader again after the first
EOF (which AsyncRead permits and any source reports as another empty
read) runs finalize_hash a second time on the swapped-in fresh hasher:
the finalize count is 2, not 1, and the slot is overwritten with the
digest of the EMPTY byte sequence instead of the digest of the three
delivered bytes. -/
theorem c3_counterexample :
    (hashingReaderRun hashingReaderNew [.chunk [1, 2, 3], .chunk [], .chunk []]).1.finalizeCount = 2 ∧
    (hashingReaderRun hashingReaderNew [.chunk [1, 2, 3], .chunk [], .chunk []]).1.slot = some [] ∧
    deliveredBytes [PollResult.chunk [1, 2, 3], .chunk [], .chunk []] = [1, 2, 3] := by
  refine ⟨by decide, by decide, by decide⟩

theorem hashingReaderRun_data_only (datas : List PollResult)
    (h : ∀ r ∈ datas, r = .pending ∨ ∃ bytes, bytes ≠ [] ∧ r = .chunk bytes) :
    ∀ s : HashingReaderState,
    (hashingReaderRun s datas).1 =
      { s with hasher := s.hasher ++ deliveredBytes datas } ∧
    (hashingReaderRun s datas).2 = datas ∧
    (∀ st ∈ hashingReaderStates s datas, st.slot = s.slot ∧ st.finalizeCount = s.finalizeCount) := by
  induction datas with
  | nil =>
      intro s
      refine ⟨by simp [hashingReaderRun, deliveredBytes], by simp [hashingReaderRun], ?_⟩
      intro st hst
      simp [hashingReaderStates] at hst
      simp [hst]
  | cons r rest ih =>
      intro s
      have hr := h r (by simp)
      have hrest : ∀ x ∈ rest, x = .pending ∨ ∃ bytes, bytes ≠ [] ∧ x = .chunk bytes :=
        fun x hx => h x (by simp [hx])
      cases hr with
      | inl hp =>
          subst hp
          have step : hashingReaderPollRead s .pending = (s, .pending) := rfl
          obtain ⟨ih1, ih2, ih3⟩ := ih hrest s
          refine ⟨?_, ?_, ?_⟩
          · simpa [hashingReaderRun, step, deliveredBytes] using ih1
          · simp [hashingReaderRun, step, deliveredBytes, ih2]
          · intro st hst
            simp only [hashingReaderStates, step, List.mem_cons] at hst
            cases hst with
            | inl he => simp [he]
            | inr hm => exact ih3 st hm
      | inr hb =>
          obtain ⟨bytes, hne, hceq⟩ := hb
          subst hceq
          have step : hashingReaderPollRead s (.chunk bytes) =
              ({ s with hasher := s.hasher ++ bytes }, .chunk bytes) := by
            simp [hashingReaderPollRead, List.isEmpty_iff, hne]
          obtain ⟨ih1, ih2, ih3⟩ := ih hrest { s with hasher := s.hasher ++ bytes }
          refine ⟨?_, ?_, ?_⟩
          · simp [hashingReaderRun, step, deliveredBytes, ih1]
          · simp [hashingReaderRun, step, deliveredBytes, ih2]
          · intro st hst
            simp only [hashingReaderStates, step, List.mem_cons] at hst
            cases hst with
            | inl he => simp [he]
            | inr hm => exact ih3 st hm

/-- Claim C3 (amended): over any poll sequence consisting of nonempty
data chunks (and Pending results) followed by a first EOF, with no
further polls after that EOF and no source errors: every result is
delivered downstream unchanged, every state up to (and including) the
moment EOF arrives has an empty slot (observers polling before EOF see
None), and at EOF the digest of exactly the delivered bytes is finalized
and published, exactly once.  (The claim as stated fails when the reader
is polled again after EOF - see the counterexample - and on a source
error the partial digest is published before any EOF.) -/
theorem hashingReaderRun_append (xs ys : List PollResult) :
    ∀ s : HashingReaderState,
    (hashingReaderRun s (xs ++ ys)).1 = (hashingReaderRun (hashingReaderRun s xs).1 ys).1 ∧
    (hashingReaderRun s (xs ++ ys)).2 =
      (hashingReaderRun s xs).2 ++ (hashingReaderRun (hashingReaderRun s xs).1 ys).2 := by
  induction xs with
  | nil => intro s; simp [hashingReaderRun]
  | cons r rest ih =>
      intro s
      obtain ⟨ih1, ih2⟩ := ih (hashingReaderPollRead s r).1
      constructor
      · simp [hashingReaderRun, ih1]
      · simp [hashingReaderRun, ih2]

/-- Claim C3 (amended): over any poll sequence consisting of nonempty
data chunks (and Pending results) followed by a first EOF, with no
further polls after that EOF and no source errors: every result is
delivered downstream unchanged, every state up to the moment EOF
arrives has an empty slot (observers polling before EOF see None), and
at EOF the digest of exactly the delivered bytes is finalized and
published, exactly once.  (The claim as stated fails when the reader is
polled again after EOF - see the counterexample - and on a source error
the partial digest is published before any EOF.) -/
theorem c3_hashing_reader_amended (datas : List PollResult)
    (h : ∀ r ∈ datas, r = .pending ∨ ∃ bytes, bytes ≠ [] ∧ r = .chunk bytes) :
    (hashingReaderRun hashingReaderNew (datas ++ [.chunk []])).2 = datas ++ [.chunk []] ∧
    (∀ st ∈ hashingReaderStates hashingReaderNew datas, st.slot = none) ∧
    (hashingReaderRun hashingReaderNew (datas ++ [.chunk []])).1.slot =
      some (deliveredBytes datas) ∧
    (hashingReaderRun hashingReaderNew (datas ++ [.chunk []])).1.finalizeCount = 1 := by
  obtain ⟨h1, h2, h3⟩ := hashingReaderRun_data_only datas h hashingReaderNew
  obtain ⟨ha1, ha2⟩ := hashingReaderRun_append datas [.chunk []] hashingReaderNew
  have hmid : (hashingReaderRun hashingReaderNew datas).1 =
      ⟨deliveredBytes datas, none, 0⟩ := by
    rw [h1]; rfl
  have heof : hashingReaderRun (⟨deliveredBytes datas, none, 0⟩ : HashingReaderState)
      [.chunk []] =
      (⟨[], some (deliveredBytes datas), 1⟩, [.chunk []]) := by
    simp [hashingReaderRun, hashingReaderPollRead, finalize_hash]
  refine ⟨?_, ?_, ?_, ?_⟩
  · rw [ha2, h2, hmid, heof]
  · intro st hst
    exact ((h3 st hst).1).trans rfl
  · rw [ha1, hmid, heof]
  · rw [ha1, hmid, heof]

/-- Witness for the amended claim C3 on a concrete poll sequence. -/
theorem c3_hashing_reader_amended_witness :
    (hashingReaderRun hashingReaderNew
        ([.chunk [1, 2], .pending, .chunk [3]] ++ [.chunk []])).1.slot = some [1, 2, 3] ∧
    (hashingReaderRun hashingReaderNew
        ([.chunk [1, 2], .pending, .chunk [3]] ++ [.chunk []])).1.finalizeCount = 1 := by
  have h := c3_hashing_reader_amended [.chunk [1, 2], .pending, .chunk [3]] (by
    intro r hr
    simp only [List.mem_cons, List.not_mem_nil, or_false] at hr
    rcases hr with h1 | h2 | h3
    · subst h1; right; exact ⟨[1, 2], by simp, rfl⟩
    · subst h2; left; rfl
    · subst h3; right; exact ⟨[3], by simp, rfl⟩)
  exact ⟨h.2.2.1, h.2.2.2⟩

/-!
## Install pipeline (src/src/service.rs lines 839-1003, mirroring
src/src/core.rs lines 387-547) and garbage collection
(src/src/service.rs lines 716-836)

The btrfs driver, filesystem and child processes are external; each call
the pipeline makes is recorded, and the outcome of each external
operation is an input (the environment).  Delete failures are logged by
the source and do not steer control flow, so only the attempt is
recorded; the operations whose results DO steer control flow (receive,
id lookup, manifest parse, set-rw, hash slot, verify, script run,
set-default) appear as environment fields.
-/

/-- The Manifest record (src/src/manifest.rs lines 26-34). -/
structure Manifest where
  version : String
  readonly : Bool
  install_script : Option String
  uninstall_script : Option String
  deriving DecidableEq

/-- Calls the install pipeline makes against the btrfs driver and the
filesystem, in order. -/
inductive BtrfsCall
  | subvolumeDelete (name : String)
  | subvolumeSetRw (name : String)
  | subvolumeSetDefault (id : Nat)
  | runScript (script : String) (args : List String)
  deriving DecidableEq

/-- Results of the external operations Service::install_update performs,
in the order the source performs them. -/
structure InstallEnv where
  /-- receive_btrfs_stream: error, or the optional subvolume name parsed
  from the btrfs receive diagnostics. -/
  receiveResult : Except ServiceError (Option String)
  /-- btrfs_subvol_get_id on the received subvolume path. -/
  subvolIdResult : Except String Nat
  /-- manifest path exists() && is_file(). -/
  manifestFilePresent : Bool
  /-- Manifest::from_file. -/
  manifestParse : Except String Manifest
  /-- subvolume_set_rw (consulted only when the manifest is not readonly). -/
  setRwResult : Except ServiceError Unit
  /-- the hash_result slot when read after streaming. -/
  hashSlot : Option String
  /-- verify_signature on the signature and computed hash. -/
  verifyResult : Except ServiceError Unit
  /-- install script exists() && is_file() && executable bit set
  (consulted only when the manifest names an install script). -/
  installScriptRunnable : Bool
  /-- cmd.status(): error = spawn failure, ok b = exited with success b. -/
  installScriptStatus : Except String Bool
  /-- subvolume_set_default. -/
  setDefaultResult : Except ServiceError Unit
  deriving DecidableEq

/-- Embedding of Service::install_update (src/src/service.rs lines
839-1003): the calls made, and the returned value. -/
def install_update (rootfs_dir deployments_dir boot_name : String) (env : InstallEnv) :
    List BtrfsCall × Except ServiceError (Option String) :=
  match env.receiveResult with
  | .error e => ([], .error e)
  | .ok none => ([], .error (.ioError "No subvolume name found"))
  | .ok (some name) =>
      match env.subvolIdResult with
      | .error e => ([], .error (.ioError ("BTRFS subvolume error: " ++ e)))
      | .ok subvol_id =>
          if ¬env.manifestFilePresent then
            ([.subvolumeDelete name], .error (.ioError "Installed subvolume is missing manifest.json"))
          else
            match env.manifestParse with
            | .error _ =>
                ([.subvolumeDelete name], .error (.ioError "Installed subvolume has invalid manifest.json"))
            | .ok manifest =>
                let rwCalls := if ¬manifest.readonly then [BtrfsCall.subvolumeSetRw name] else []
                if ¬manifest.readonly ∧ env.setRwResult.isOk = false then
                  (rwCalls, .error (match env.setRwResult with
                    | .error e => e
                    | .ok _ => .ioError "unreachable"))
                else
                  match env.hashSlot with
                  | none =>
                      (rwCalls ++ [.subvolumeDelete name],
                       .error (.ioError "Failed to compute SHA512 hash of update stream"))
                  | some _hash_hex =>
                      match env.verifyResult with
                      | .error e => (rwCalls, .error e)
                      | .ok _ =>
                          match manifest.install_script with
                          | some install_script =>
                              if ¬env.installScriptRunnable then
                                (rwCalls ++ [.subvolumeDelete name],
                                 .error (.ioError "Installed subvolume has invalid manifest.json"))
                              else
                                let runCall := BtrfsCall.runScript install_script
                                  [rootfs_dir, deployments_dir, name, boot_name]
                                match env.installScriptStatus with
                                | .error e =>
                                    (rwCalls ++ [runCall],
                                     .error (.ioError ("Failed to execute install script: " ++ e)))
                                | .ok _ =>
                                    -- a non-zero exit status is only logged
                                    match env.setDefaultResult with
                                    | .error e =>
                                        (rwCalls ++ [runCall, .subvolumeSetDefault subvol_id], .error e)
                                    | .ok _ =>
                                        (rwCalls ++ [runCall, .subvolumeSetDefault subvol_id],
                                         .ok (some name))
                          | none =>
                              match env.setDefaultResult with
                              | .error e => (rwCalls ++ [.subvolumeSetDefault subvol_id], .error e)
                              | .ok _ =>
                                  (rwCalls ++ [.subvolumeSetDefault subvol_id], .ok (some name))

/-- One enumerated deployment with the outcomes of the external
operations clear_old_deployments performs on it. -/
structure DeploymentEntry where
  name : String
  id : Nat
  /-- Manifest::from_file on the deployment manifest path. -/
  manifestParse : Except String Manifest
  /-- uninstall script exists() && is_file() && executable bit set. -/
  uninstallScriptRunnable : Bool
  /-- cmd.status(): error = spawn failure, ok b = exited with success b. -/
  uninstallScriptStatus : Except String Bool
  /-- whether subvolume_delete succeeds on this deployment. -/
  deleteOk : Bool
  deriving DecidableEq

/-- Calls garbage collection makes, in order. -/
inductive GcCall
  | runUninstall (name : String) (script : String)
  | deleteAttempt (name : String) (id : Nat)
  deriving DecidableEq

/-- The per-deployment uninstall-hook step of clear_old_deployments
(src/src/service.rs lines 758-817): a missing or malformed manifest and
a missing or non-executable named hook are only logged; a runnable hook
is run; a hook spawn failure becomes the error that aborts the loop (the
question-mark operator on cmd.status()); a hook non-zero exit is only
logged.  Returns the calls made and the aborting error, if any. -/
def gcHook (d : DeploymentEntry) : List GcCall × Option ServiceError :=
  match d.manifestParse with
  | .ok manifest =>
      match manifest.uninstall_script with
      | some script =>
          if d.uninstallScriptRunnable then
            match d.uninstallScriptStatus with
            | .error e =>
                ([.runUninstall d.name script],
                 some (.ioError ("Failed to execute install script: " ++ e)))
            | .ok _ => ([.runUninstall d.name script], none)
          else ([], none)
      | none => ([], none)
  | .error _ => ([], none)

/-- Embedding of Service::clear_old_deployments (src/src/service.rs
lines 716-836): skip the deployment whose id is boot_id or current_id;
otherwise run the uninstall-hook step, whose spawn error aborts the
whole loop, then attempt the delete (a delete failure is only logged);
return the successful-delete count. -/
def clear_old_deployments (boot_id current_id : Nat) :
    List DeploymentEntry → List GcCall × Except ServiceError Nat
  | [] => ([], .ok 0)
  | d :: rest =>
      if d.id = boot_id then clear_old_deployments boot_id current_id rest
      else if d.id = current_id then clear_old_deployments boot_id current_id rest
      else
        match gcHook d with
        | (hookCalls, some e) => (hookCalls, .error e)
        | (hookCalls, none) =>
            let (restCalls, restRes) := clear_old_deployments boot_id current_id rest
            (hookCalls ++ [.deleteAttempt d.name d.id] ++ restCalls,
             match restRes with
             | .ok c => .ok ((if d.deleteOk then 1 else 0) + c)
             | .error e => .error e)

/-- Environment for the claim C4 counterexample: everything succeeds,
the manifest names an install hook, but the referenced file is not
runnable (absent, not a file, or not executable). -/
def c4Env : InstallEnv :=
  { receiveResult := .ok (some "dep")
    subvolIdResult := .ok 7
    manifestFilePresent := true
    manifestParse := .ok ⟨"1.0", true, some "hook.sh", none⟩
    setRwResult := .ok ()
    hashSlot := some "ab"
    verifyResult := .ok ()
    installScriptRunnable := false
    installScriptStatus := .ok true
    setDefaultResult := .ok () }

/-- Claim C4 counterexample: with a named install hook whose file is not
runnable, the install does NOT succeed: the fresh subvolume is deleted,
the default subvolume is never set, no hook is invoked, and an error is
returned. -/
theorem c4_counterexample :
    install_update "/rootfs" "/rootfs/deployments" "boot" c4Env =
      ([.subvolumeDelete "dep"],
       .error (.ioError "Installed subvolume has invalid manifest.json")) := by
  decide

/-- Claim C4 (amended): when the manifest names an install hook whose
file is absent or not executable, the install FAILS: deletion of the new
subvolume is attempted, no hook is invoked, the default is not changed,
and an error is returned; when the hook is runnable and exits with a
non-zero status, the exit is only logged and the update still succeeds
(the new subvolume is set as default and its name returned). -/
theorem c4_install_hook_amended
    (rootfs_dir deployments_dir boot_name : String) (env : InstallEnv)
    (name : String) (subvol_id : Nat) (m : Manifest) (s hh : String)
    (h1 : env.receiveResult = .ok (some name))
    (h2 : env.subvolIdResult = .ok subvol_id)
    (h3 : env.manifestFilePresent = true)
    (h4 : env.manifestParse = .ok m)
    (h5 : m.readonly = false → env.setRwResult = .ok ())
    (h6 : env.hashSlot = some hh)
    (h7 : env.verifyResult = .ok ())
    (h8 : m.install_script = some s) :
    (env.installScriptRunnable = false →
      (install_update rootfs_dir deployments_dir boot_name env).2 =
          .error (.ioError "Installed subvolume has invalid manifest.json") ∧
      BtrfsCall.subvolumeDelete name ∈
          (install_update rootfs_dir deployments_dir boot_name env).1 ∧
      (∀ sc args, BtrfsCall.runScript sc args ∉
          (install_update rootfs_dir deployments_dir boot_name env).1) ∧
      BtrfsCall.subvolumeSetDefault subvol_id ∉
          (install_update rootfs_dir deployments_dir boot_name env).1) ∧
    (env.installScriptRunnable = true → env.installScriptStatus = .ok false →
      env.setDefaultResult = .ok () →
      (install_update rootfs_dir deployments_dir boot_name env).2 = .ok (some name) ∧
      BtrfsCall.runScript s [rootfs_dir, deployments_dir, name, boot_name] ∈
          (install_update rootfs_dir deployments_dir boot_name env).1 ∧
      BtrfsCall.subvolumeSetDefault subvol_id ∈
          (install_update rootfs_dir deployments_dir boot_name env).1) := by
  cases env with
  | mk rr sir mfp mp srw hs vr isr iss sdr =>
      simp only at h1 h2 h3 h4 h5 h6 h7
      subst h1; subst h2; subst h3; subst h4; subst h6; subst h7
      cases m with
      | mk mv mro mis mus =>
          simp only at h5 h8
          subst h8
          cases mro with
          | true =>
              constructor
              · intro hrun
                simp only at hrun
                subst hrun
                simp [install_update]
              · intro hrun hst hsd
                simp only at hrun hst hsd
                subst hrun; subst hst; subst hsd
                simp [install_update]
          | false =>
              have hsrw := h5 rfl
              simp only at hsrw
              subst hsrw
              constructor
              · intro hrun
                simp only at hrun
                subst hrun
                simp [install_update, Except.isOk, Except.toBool]
              · intro hrun hst hsd
                simp only at hrun hst hsd
                subst hrun; subst hst; subst hsd
                simp [install_update, Except.isOk, Except.toBool]

/-- Witness for the amended claim C4, both branches, at concrete
environments. -/
theorem c4_install_hook_amended_witness :
    ((install_update "/rootfs" "/rootfs/deployments" "boot" c4Env).2 =
        .error (.ioError "Installed subvolume has invalid manifest.json") ∧
      BtrfsCall.subvolumeSetDefault 7 ∉
        (install_update "/rootfs" "/rootfs/deployments" "boot" c4Env).1) ∧
    ((install_update "/rootfs" "/rootfs/deployments" "boot"
          { c4Env with installScriptRunnable := true, installScriptStatus := .ok false }).2 =
        .ok (some "dep") ∧
      BtrfsCall.subvolumeSetDefault 7 ∈
        (install_update "/rootfs" "/rootfs/deployments" "boot"
          { c4Env with installScriptRunnable := true, installScriptStatus := .ok false }).1) := by
  have ha := c4_install_hook_amended "/rootfs" "/rootfs/deployments" "boot" c4Env
    "dep" 7 ⟨"1.0", true, some "hook.sh", none⟩ "hook.sh" "ab"
    rfl rfl rfl rfl (fun h => by simp at h) rfl rfl rfl
  have hb := c4_install_hook_amended "/rootfs" "/rootfs/deployments" "boot"
    { c4Env with installScriptRunnable := true, installScriptStatus := .ok false }
    "dep" 7 ⟨"1.0", true, some "hook.sh", none⟩ "hook.sh" "ab"
    rfl rfl rfl rfl (fun h => by simp at h) rfl rfl rfl
  obtain ⟨ha1, _, _, ha4⟩ := ha.1 rfl
  obtain ⟨hb1, _, hb3⟩ := hb.2 rfl rfl rfl
  exact ⟨⟨ha1, ha4⟩, ⟨hb1, hb3⟩⟩

/-- Deployment whose uninstall hook spawn fails (cmd.status() errors),
used by the claim C1 counterexample. -/
def c1BadHookDep : DeploymentEntry :=
  ⟨"a", 3, .ok ⟨"1", true, none, some "u.sh"⟩, true, .error "spawn", true⟩

/-- Deployment after it, which the claim says must still have its
deletion attempted. -/
def c1SecondDep : DeploymentEntry :=
  ⟨"b", 4, .error "missing", false, .ok true, true⟩

/-- Claim C1 counterexample: with boot_id = 1 and current default 2,
when the first unprotected deployment names an uninstall hook whose
spawn fails, clear_old_deployments returns an error and stops: the
second unprotected deployment never has its deletion attempted, and no
count of successful deletions is returned. -/
theorem c1_counterexample :
    clear_old_deployments 1 2 [c1BadHookDep, c1SecondDep] =
      ([.runUninstall "a" "u.sh"],
       .error (.ioError "Failed to execute install script: spawn")) := by
  decide

theorem gcHook_no_delete (d : DeploymentEntry) (n : String) (i : Nat) :
    GcCall.deleteAttempt n i ∉ (gcHook d).1 := by
  unfold gcHook
  split
  · split
    · split
      · split <;> simp
      · simp
    · simp
  · simp

theorem clear_old_deployments_protected (boot_id current_id : Nat)
    (deps : List DeploymentEntry) :
    ∀ n i, GcCall.deleteAttempt n i ∈ (clear_old_deployments boot_id current_id deps).1 →
      i ≠ boot_id ∧ i ≠ current_id := by
  induction deps with
  | nil => intro n i h; simp [clear_old_deployments] at h
  | cons d rest ih =>
      intro n i h
      by_cases hb : d.id = boot_id
      · rw [clear_old_deployments, if_pos hb] at h
        exact ih n i h
      · by_cases hc : d.id = current_id
        · rw [clear_old_deployments, if_neg hb, if_pos hc] at h
          exact ih n i h
        · rw [clear_old_deployments, if_neg hb, if_neg hc] at h
          rcases hgc : gcHook d with ⟨hookCalls, abortOpt⟩
          rw [hgc] at h
          have hnod : GcCall.deleteAttempt n i ∉ hookCalls := by
            have := gcHook_no_delete d n i
            rw [hgc] at this
            exact this
          cases abortOpt with
          | some e => exact absurd h hnod
          | none =>
              simp only [List.append_assoc, List.mem_append, List.mem_cons,
                List.not_mem_nil, or_false] at h
              rcases h with h | h | h
              · exact absurd h hnod
              · cases h
                exact ⟨hb, hc⟩
              · exact ih n i h

theorem clear_old_deployments_complete (boot_id current_id : Nat)
    (deps : List DeploymentEntry)
    (hspawn : ∀ d ∈ deps, d.id ≠ boot_id → d.id ≠ current_id → (gcHook d).2 = none) :
    (∀ d ∈ deps, d.id ≠ boot_id → d.id ≠ current_id →
        GcCall.deleteAttempt d.name d.id ∈ (clear_old_deployments boot_id current_id deps).1) ∧
    (clear_old_deployments boot_id current_id deps).2 =
      .ok (deps.countP fun d =>
        decide (d.id ≠ boot_id) && decide (d.id ≠ current_id) && d.deleteOk) := by
  induction deps with
  | nil => exact ⟨by intro d hd; simp at hd, by simp [clear_old_deployments]⟩
  | cons d rest ih =>
      have hrest : ∀ x ∈ rest, x.id ≠ boot_id → x.id ≠ current_id → (gcHook x).2 = none :=
        fun x hx => hspawn x (by simp [hx])
      obtain ⟨ih1, ih2⟩ := ih hrest
      by_cases hb : d.id = boot_id
      · refine ⟨?_, ?_⟩
        · intro x hx hxb hxc
          rw [clear_old_deployments, if_pos hb]
          rcases List.mem_cons.mp hx with hx1 | hx2
          · subst hx1; exact absurd hb hxb
          · exact ih1 x hx2 hxb hxc
        · rw [clear_old_deployments, if_pos hb, ih2, List.countP_cons]
          simp [hb]
      · by_cases hc : d.id = current_id
        · refine ⟨?_, ?_⟩
          · intro x hx hxb hxc
            rw [clear_old_deployments, if_neg hb, if_pos hc]
            rcases List.mem_cons.mp hx with hx1 | hx2
            · subst hx1; exact absurd hc hxc
            · exact ih1 x hx2 hxb hxc
          · rw [clear_old_deployments, if_neg hb, if_pos hc, ih2, List.countP_cons]
            simp [hc]
        · have hno := hspawn d (by simp) hb hc
          rcases hgc : gcHook d with ⟨hookCalls, abortOpt⟩
          rw [hgc] at hno
          simp only at hno
          subst hno
          refine ⟨?_, ?_⟩
          · intro x hx hxb hxc
            rw [clear_old_deployments, if_neg hb, if_neg hc, hgc]
            rcases List.mem_cons.mp hx with hx1 | hx2
            · subst hx1; simp
            · have := ih1 x hx2 hxb hxc
              simp only [List.append_assoc, List.mem_append, List.mem_cons]
              right; right
              simpa using this
          · rw [clear_old_deployments, if_neg hb, if_neg hc, hgc]
            simp only [ih2, List.countP_cons]
            have hpred : (decide (d.id ≠ boot_id) && decide (d.id ≠ current_id) && d.deleteOk) =
                d.deleteOk := by
              simp [hb, hc]
            rw [hpred]
            cases hdo : d.deleteOk <;> simp [Nat.add_comm]

/-- Claim C1 (amended): during garbage collection, a deployment whose id
equals boot_id or the current default id is never the subject of a
subvolume_delete call, unconditionally; and PROVIDED no uninstall hook
spawn fails (a spawn failure propagates as an error and stops the loop,
leaving later deployments unprocessed), every other enumerated
deployment has its deletion attempted, a deletion failure is only
logged and skipped, and the function returns the count of successfully
deleted deployments. -/
theorem c1_gc_amended (boot_id current_id : Nat) (deps : List DeploymentEntry) :
    (∀ n i, GcCall.deleteAttempt n i ∈ (clear_old_deployments boot_id current_id deps).1 →
        i ≠ boot_id ∧ i ≠ current_id) ∧
    ((∀ d ∈ deps, d.id ≠ boot_id → d.id ≠ current_id → (gcHook d).2 = none) →
      (∀ d ∈ deps, d.id ≠ boot_id → d.id ≠ current_id →
          GcCall.deleteAttempt d.name d.id ∈ (clear_old_deployments boot_id current_id deps).1) ∧
      (clear_old_deployments boot_id current_id deps).2 =
        .ok (deps.countP fun d =>
          decide (d.id ≠ boot_id) && decide (d.id ≠ current_id) && d.deleteOk)) :=
  ⟨clear_old_deployments_protected boot_id current_id deps,
   fun hspawn => clear_old_deployments_complete boot_id current_id deps hspawn⟩

/-- Witness for the amended claim C1: with boot_id 1, default 2, a
protected deployment (id 1) and an unprotected one (d with id 4), only
the unprotected one is deleted and the count is 1. -/
theorem c1_gc_amended_witness :
    (∀ n i, GcCall.deleteAttempt n i ∈
        (clear_old_deployments 1 2 [⟨"boot", 1, .error "m", false, .ok true, true⟩,
          c1SecondDep]).1 → i ≠ 1 ∧ i ≠ 2) ∧
    GcCall.deleteAttempt "b" 4 ∈
      (clear_old_deployments 1 2 [⟨"boot", 1, .error "m", false, .ok true, true⟩,
        c1SecondDep]).1 ∧
    (clear_old_deployments 1 2 [⟨"boot", 1, .error "m", false, .ok true, true⟩,
      c1SecondDep]).2 = .ok 1 := by
  have h := c1_gc_amended 1 2 [⟨"boot", 1, .error "m", false, .ok true, true⟩, c1SecondDep]
  have h2 := h.2 (by
    intro d hd hb hc
    simp only [List.mem_cons, List.not_mem_nil, or_false] at hd
    rcases hd with h1 | h1 <;> (subst h1; first | (exact absurd rfl hb) | decide))
  exact ⟨h.1, h2.1 c1SecondDep (by simp) (by decide) (by decide), h2.2⟩

/-!
## Update scheduler (src/src/service.rs lines 1066-1438)

The request loop, entry loop and process_update_entry are embedded as
functions from the per-request environment (archive entries, fetch
outcome, confirmation decision, install outcome) to the list of
observable writes they perform on the status slot and the
pending_update slot, in program order, plus whether the receive
pipeline (install_update, which consumes the stream) was started.
The two slots are separate RwLocks written one after the other, so an
observer can take a read lease between any two adjacent writes: the
states it can see are the prefix-folds of the write list.
-/

/-- UpdateStatus (src/src/status.rs lines 22-37). -/
inductive UpdateStatus
  | idle
  | checking
  | clearing
  | installing (source : String) (progress : Int)
  | awaitingConfirmation (version : String) (source : String)
  | completed (source : String) (deployment : String)
  | failed (source : String) (error : String)
  deriving DecidableEq

/-- PendingUpdate (src/src/service.rs lines 56-61). -/
structure PendingUpdate where
  version : String
  changelog : String
  source : String
  deriving DecidableEq

/-- One observable write of the request loop: to the status slot or to
the pending_update slot. -/
inductive ObsWrite
  | wStatus (st : UpdateStatus)
  | wPending (p : Option PendingUpdate)
  deriving DecidableEq

/-- Rendering of a ServiceError as the Display string used in Failed
statuses; the claims only inspect the Failed constructor, never this
text, so the text is schematic. -/
def errString : ServiceError → String
  | .ioError m => m
  | .noUpdateAvailable => "no update available"
  | .btrfsError m => m
  | .pubKeyImportError => "public key import error"

/-- Embedding of Service::process_update_entry (src/src/service.rs lines
1289-1438): returns the observable writes in order, the Result value
(Ok true = continue the entry loop, Ok false = stop this request,
error = stop this request), and whether install_update was started
(that is, whether the compressed stream began to be consumed). -/
def process_update_entry (auto_install : Bool) (confirmReply : Option Bool)
    (changelog_content : Option String) (signature_content : Option (List Nat))
    (installResult : Except ServiceError (Option String)) (source_desc : String) :
    List ObsWrite × Except ServiceError Bool × Bool :=
  match changelog_content with
  | none => ([], .error (.ioError "CHANGELOG not found in archive"), false)
  | some changelog =>
      match signature_content with
      | none => ([], .error (.ioError "update.signature not found in archive"), false)
      | some _signature =>
          let version := extract_version_from_changelog changelog
          let gate : List ObsWrite × Bool :=
            if ¬auto_install then
              let pendWrites :=
                [ObsWrite.wPending (some ⟨version, changelog, source_desc⟩),
                 ObsWrite.wStatus (.awaitingConfirmation version source_desc)]
              match confirmReply with
              | some true => (pendWrites ++ [.wPending none], true)
              | some false =>
                  (pendWrites ++ [.wPending none,
                    .wStatus (.failed source_desc "Update rejected by user")], false)
              | none =>
                  (pendWrites ++ [.wPending none,
                    .wStatus (.failed source_desc "Confirmation channel closed")], false)
            else ([], true)
          match gate with
          | (w, false) => (w, .ok false, false)
          | (w, true) =>
              let w2 := w ++ [ObsWrite.wStatus (.installing source_desc 0)]
              match installResult with
              | .ok (some deployment_name) =>
                  (w2 ++ [.wStatus .clearing,
                          .wStatus (.completed source_desc deployment_name)], .ok true, true)
              | .ok none =>
                  (w2 ++ [.wStatus (.failed source_desc "Deployment name not returned")],
                   .ok true, true)
              | .error e =>
                  (w2 ++ [.wStatus (.failed source_desc (errString e))], .ok true, true)

/-- One entry of the update tar archive, by name. -/
inductive ArchiveEntry
  | changelogEntry (content : String)
  | signatureEntry (bytes : List Nat)
  | updateStream
  | otherEntry (name : String)
  deriving DecidableEq

/-- Embedding of the entry loop of update_request_loop (src/src/service.rs
lines 1155-1279): CHANGELOG and update.signature entries are read into
the two accumulators (an empty signature fails the request); reaching
update.btrfs.xz runs process_update_entry with whatever has been read
so far; an error or Ok(false) from it stops this request (continue
at the outer loop) with NO further status write; unknown entries are
discarded.  Returns the writes and the pipeline-started flag. -/
def entries_loop (auto_install : Bool) (confirmReply : Option Bool)
    (installResult : Except ServiceError (Option String)) (source_desc : String) :
    Option String → Option (List Nat) → List ArchiveEntry → List ObsWrite × Bool
  | _, _, [] => ([], false)
  | cl, sg, e :: rest =>
      match e with
      | .changelogEntry c => entries_loop auto_install confirmReply installResult source_desc (some c) sg rest
      | .signatureEntry bytes =>
          if bytes.isEmpty then
            ([.wStatus (.failed source_desc "update.signature file is empty")], false)
          else entries_loop auto_install confirmReply installResult source_desc cl (some bytes) rest
      | .updateStream =>
          match process_update_entry auto_install confirmReply cl sg installResult source_desc with
          | (w, .ok true, p) =>
              let (w2, p2) := entries_loop auto_install confirmReply installResult source_desc cl sg rest
              (w ++ w2, p || p2)
          | (w, .ok false, p) => (w, p)
          | (w, .error _, p) => (w, p)
      | .otherEntry _ => entries_loop auto_install confirmReply installResult source_desc cl sg rest

/-- The source of one update request. -/
inductive UpdateSource
  | urlSource (url : String)
  | fileSource (path : String)
  deriving DecidableEq

/-- Everything external that one request encounters: the fetch outcome
for its source kind, the archive entries behind it, the confirmation
decision (None = channel closed) and the install pipeline outcome. -/
structure RequestEnv where
  source : UpdateSource
  /-- for URL sources: transport error, or the HTTP status code received. -/
  urlFetch : Except String Nat
  /-- for file sources: File::open outcome. -/
  fileOpen : Except String Unit
  entries : List ArchiveEntry
  confirmReply : Option Bool
  installResult : Except ServiceError (Option String)
  deriving DecidableEq

def sourceDesc : UpdateSource → String
  | .urlSource u => u
  | .fileSource p => p

/-- reqwest StatusCode::is_success: the 2xx range. -/
def isSuccessStatus (code : Nat) : Bool := 200 ≤ code && code ≤ 299

/-- Embedding of the per-request part of update_request_loop
(src/src/service.rs lines 1082-1279 with extract_url_update_contents at
1013-1044 and extract_file_update_contents at 1052-1064): publish
Checking, open the source (a non-2xx HTTP response is NoUpdateAvailable
and publishes Idle, not Failed; a transport or open error publishes
Failed), then run the entry loop. -/
def process_request (auto_install : Bool) (req : RequestEnv) : List ObsWrite × Bool :=
  let sd := sourceDesc req.source
  let checking := [ObsWrite.wStatus .checking]
  match req.source with
  | .urlSource _ =>
      match req.urlFetch with
      | .error msg => (checking ++ [.wStatus (.failed sd msg)], false)
      | .ok code =>
          if ¬isSuccessStatus code then
            (checking ++ [.wStatus .idle], false)
          else
            let (w, p) := entries_loop auto_install req.confirmReply req.installResult sd
              none none req.entries
            (checking ++ w, p)
  | .fileSource _ =>
      match req.fileOpen with
      | .error msg => (checking ++ [.wStatus (.failed sd msg)], false)
      | .ok _ =>
          let (w, p) := entries_loop auto_install req.confirmReply req.installResult sd
            none none req.entries
          (checking ++ w, p)

/-- The request loop: requests are processed strictly in order, each
contributing its writes. -/
def update_request_loop (auto_install : Bool) : List RequestEnv → List ObsWrite
  | [] => []
  | req :: rest => (process_request auto_install req).1 ++ update_request_loop auto_install rest

/-- A snapshot an observer with a read lease can see: the two slots. -/
structure SchedState where
  pending : Option PendingUpdate
  status : UpdateStatus
  deriving DecidableEq

def applyWrite (s : SchedState) : ObsWrite → SchedState
  | .wStatus st => { s with status := st }
  | .wPending p => { s with pending := p }

/-- All states observable while a write list executes (before, between
and after the writes). -/
def obsStates (s : SchedState) : List ObsWrite → List SchedState
  | [] => [s]
  | w :: rest => s :: obsStates (applyWrite s w) rest

/-- The synchronization property of claim C6: pending is present exactly
when the status is AwaitingConfirmation. -/
def inSync (s : SchedState) : Bool :=
  s.pending.isSome =
    (match s.status with
     | .awaitingConfirmation _ _ => true
     | _ => false)

/-- Whether a write list contains a Failed status write. -/
def hasFailedWrite (w : List ObsWrite) : Bool :=
  w.any fun x =>
    match x with
    | .wStatus (.failed _ _) => true
    | _ => false

/-- Claim C7: for a URL request answered with 404 or any other non-2xx
status, the request publishes exactly Checking then Idle (never Failed),
the pipeline is never started, and the loop goes on to process the next
requests unchanged. -/
theorem c7_non2xx_is_idle (auto_install : Bool) (url : String) (code : Nat)
    (fo : Except String Unit) (entries : List ArchiveEntry) (cr : Option Bool)
    (ir : Except ServiceError (Option String)) (rest : List RequestEnv)
    (h : isSuccessStatus code = false) :
    process_request auto_install ⟨.urlSource url, .ok code, fo, entries, cr, ir⟩ =
      ([.wStatus .checking, .wStatus .idle], false) ∧
    hasFailedWrite
      (process_request auto_install ⟨.urlSource url, .ok code, fo, entries, cr, ir⟩).1 = false ∧
    update_request_loop auto_install (⟨.urlSource url, .ok code, fo, entries, cr, ir⟩ :: rest) =
      [.wStatus .checking, .wStatus .idle] ++ update_request_loop auto_install rest := by
  have hpr : process_request auto_install ⟨.urlSource url, .ok code, fo, entries, cr, ir⟩ =
      ([.wStatus .checking, .wStatus .idle], false) := by
    simp [process_request, sourceDesc, h]
  refine ⟨hpr, ?_, ?_⟩
  · rw [hpr]; decide
  · rw [update_request_loop, hpr]

/-- Witness for claim C7 at a concrete 404 response. -/
theorem c7_non2xx_is_idle_witness :
    process_request true ⟨.urlSource "http:u", .ok 404, .ok (), [], none, .ok none⟩ =
      ([.wStatus .checking, .wStatus .idle], false) ∧
    update_request_loop true [⟨.urlSource "http:u", .ok 404, .ok (), [], none, .ok none⟩] =
      [.wStatus .checking, .wStatus .idle] := by
  have h := c7_non2xx_is_idle true "http:u" 404 (.ok ()) [] none (.ok none) [] (by decide)
  exact ⟨h.1, h.2.2⟩

/-- Request environment for claim C5: the compressed stream entry comes
first, before CHANGELOG and update.signature. -/
def c5Req : RequestEnv :=
  { source := .fileSource "/tmp/u.tar"
    urlFetch := .ok 200
    fileOpen := .ok ()
    entries := [.updateStream, .changelogEntry "Version 1.2.3", .signatureEntry [1]]
    confirmReply := some true
    installResult := .ok (some "rel-1.2.3") }

/-- Claim C5 counterexample: with update.btrfs.xz first in the archive,
the pipeline is indeed never started, but NO Failed status is ever
published: process_update_entry returns an error that update_request_loop
swallows (continue at the outer loop, service.rs lines 1260-1262), so
the only write of the request is Checking. -/
theorem c5_counterexample :
    process_request true c5Req = ([.wStatus .checking], false) ∧
    hasFailedWrite (process_request true c5Req).1 = false := by
  constructor
  · decide
  · decide

/-- The ordering test of claim C5 on an entry list, threading the two
read-so-far accumulators the way the entry loop does: true when
update.btrfs.xz is reached while CHANGELOG or update.signature has not
yet been read. -/
def streamBeforeSmall : Option String → Option (List Nat) → List ArchiveEntry → Bool
  | _, _, [] => false
  | cl, sg, e :: rest =>
      match e with
      | .changelogEntry c => streamBeforeSmall (some c) sg rest
      | .signatureEntry b => if b.isEmpty then false else streamBeforeSmall cl (some b) rest
      | .updateStream => cl.isNone || sg.isNone
      | .otherEntry _ => streamBeforeSmall cl sg rest

theorem entries_loop_stream_first (auto_install : Bool) (cr : Option Bool)
    (ir : Except ServiceError (Option String)) (sd : String) :
    ∀ (entries : List ArchiveEntry) (cl : Option String) (sg : Option (List Nat)),
    streamBeforeSmall cl sg entries = true →
    entries_loop auto_install cr ir sd cl sg entries = ([], false) := by
  intro entries
  induction entries with
  | nil => intro cl sg h; simp [streamBeforeSmall] at h
  | cons e rest ih =>
      intro cl sg h
      cases e with
      | changelogEntry c =>
          rw [streamBeforeSmall] at h
          rw [entries_loop]
          exact ih (some c) sg h
      | signatureEntry b =>
          rw [streamBeforeSmall] at h
          rw [entries_loop]
          cases hb : b.isEmpty with
          | true => rw [hb] at h; simp at h
          | false =>
              rw [hb] at h
              simp only [hb, Bool.false_eq_true, if_false]
              exact ih cl (some b) h
      | updateStream =>
          rw [streamBeforeSmall] at h
          rw [entries_loop]
          cases cl with
          | none => rfl
          | some c =>
              cases sg with
              | none => rfl
              | some s => simp [Option.isNone] at h
      | otherEntry nm =>
          rw [streamBeforeSmall] at h
          rw [entries_loop]
          exact ih cl sg h

/-- Claim C5 (amended): for every request whose source opens (a file that
opens, or a URL answered 2xx) and whose archive reaches update.btrfs.xz
before both CHANGELOG and update.signature have been read, the scheduler
fails the request before the compressed stream is consumed (the receive
pipeline is never started), and the only status published for the
request is Checking - in particular the status does NOT become Failed;
the error is swallowed and the loop just moves to the next request. -/
theorem c5_stream_order_amended (auto_install : Bool) (req : RequestEnv)
    (h : streamBeforeSmall none none req.entries = true)
    (hf : match req.source with
          | .urlSource _ => ∃ code, req.urlFetch = .ok code ∧ isSuccessStatus code = true
          | .fileSource _ => req.fileOpen = .ok ()) :
    process_request auto_install req = ([.wStatus .checking], false) := by
  cases req with
  | mk src uf fo entries cr ir =>
      simp only at h
      cases src with
      | urlSource u =>
          simp only at hf
          obtain ⟨code, hc, hs⟩ := hf
          subst hc
          rw [process_request]
          simp only [hs]
          rw [entries_loop_stream_first auto_install cr ir (sourceDesc (.urlSource u))
            entries none none h]
          simp
      | fileSource p =>
          simp only at hf
          subst hf
          rw [process_request]
          rw [entries_loop_stream_first auto_install cr ir (sourceDesc (.fileSource p))
            entries none none h]
          simp

/-- Witness for the amended claim C5 at the concrete mis-ordered
archive. -/
theorem c5_stream_order_amended_witness :
    process_request true c5Req = ([.wStatus .checking], false) :=
  c5_stream_order_amended true c5Req (by decide) rfl

/-- Claim C6 counterexample: with auto_install disabled and an accepted
confirmation, an observer taking a read lease between two adjacent slot
writes CAN see the pending_update slot and the status slot out of sync:
right after the pending slot is set the status is still Checking, and
right after it is cleared the status is still AwaitingConfirmation.  The
two slots are separate RwLocks written one after the other
(service.rs lines 1323-1330 and 1340, 1376). -/
theorem c6_counterexample :
    (obsStates ⟨none, .checking⟩
        (process_update_entry false (some true) (some "Version 1.0") (some [1])
          (.ok (some "rel")) "/tmp/u.tar").1).any (fun s => !inSync s) = true := by
  decide

/-- The pending-slot writes of a write list, in order. -/
def pendingWritesOf (w : List ObsWrite) : List (Option PendingUpdate) :=
  w.filterMap fun x =>
    match x with
    | .wPending p => some p
    | _ => none

/-- Claim C6 (amended): when auto_install is false and both small
entries were read, the pending slot is written exactly twice: set (with
the pending record) immediately BEFORE the status write that enters
AwaitingConfirmation, and cleared exactly once on the way out - whether
the update is accepted, rejected, or the channel closes - immediately
BEFORE the next status write (Installing on accept, Failed otherwise).
Because the set precedes the status transition and the clear precedes
the next one, observers between adjacent writes can momentarily see the
slots out of sync (see the counterexample); apart from those windows the
two change together, and the pending slot is never set or cleared a
second time. -/
theorem c6_pending_lifecycle_amended (changelog src : String) (sg : List Nat)
    (reply : Option Bool) (ir : Except ServiceError (Option String)) :
    (process_update_entry false reply (some changelog) (some sg) ir src).1.take 3 =
      [.wPending (some ⟨extract_version_from_changelog changelog, changelog, src⟩),
       .wStatus (.awaitingConfirmation (extract_version_from_changelog changelog) src),
       .wPending none] ∧
    pendingWritesOf (process_update_entry false reply (some changelog) (some sg) ir src).1 =
      [some ⟨extract_version_from_changelog changelog, changelog, src⟩, none] ∧
    (∃ st, (process_update_entry false reply (some changelog) (some sg) ir src).1.get? 3 =
        some (.wStatus st) ∧ ∀ v2 s2, st ≠ .awaitingConfirmation v2 s2) := by
  cases reply with
  | none =>
      refine ⟨by simp [process_update_entry], by simp [process_update_entry, pendingWritesOf], ?_⟩
      exact ⟨.failed src "Confirmation channel closed", by simp [process_update_entry], by simp⟩
  | some b =>
      cases b with
      | false =>
          refine ⟨by simp [process_update_entry], by simp [process_update_entry, pendingWritesOf], ?_⟩
          exact ⟨.failed src "Update rejected by user", by simp [process_update_entry], by simp⟩
      | true =>
          cases ir with
          | error e =>
              refine ⟨by simp [process_update_entry],
                by simp [process_update_entry, pendingWritesOf], ?_⟩
              exact ⟨.installing src 0, by simp [process_update_entry], by simp⟩
          | ok dep =>
              cases dep with
              | none =>
                  refine ⟨by simp [process_update_entry],
                    by simp [process_update_entry, pendingWritesOf], ?_⟩
                  exact ⟨.installing src 0, by simp [process_update_entry], by simp⟩
              | some nm =>
                  refine ⟨by simp [process_update_entry],
                    by simp [process_update_entry, pendingWritesOf], ?_⟩
                  exact ⟨.installing src 0, by simp [process_update_entry], by simp⟩

/-!
## Periodic URL poller (src/src/service.rs lines 1442-1485)

The tokio::select! loop is modelled as a fold over the events the task
observes: the termination notifier firing, or a cadence tick carrying
whether the send into the request channel succeeds.  The poller has NO
input carrying the outcome of any update: its local update_done flag is
the only state, set after a request is successfully SENT.
-/

/-- One event the poller loop observes. -/
inductive PollerEvent
  | notified
  | tick (sendOk : Bool)
  deriving DecidableEq

/-- Embedding of the periodic_url_checker loop body: notified breaks;
a tick with update_done set is skipped; otherwise a request is sent -
success sets update_done and counts one enqueue, failure breaks.
Returns the number of requests successfully enqueued over the run. -/
def pollerRun (update_done : Bool) : List PollerEvent → Nat
  | [] => 0
  | .notified :: _ => 0
  | .tick sendOk :: rest =>
      if update_done then pollerRun update_done rest
      else if sendOk then 1 + pollerRun true rest
      else 0

/-- The poller over its lifetime, starting with update_done = false. -/
def periodic_url_checker (events : List PollerEvent) : Nat := pollerRun false events

/-- Claim C9 as stated: the poller re-enqueues at every cadence tick
until a successful update has occurred; since the poller observes no
update outcome at all, in a run where no successful update exists each
processed tick should enqueue. -/
def claimedPollerCount : List PollerEvent → Nat
  | [] => 0
  | .notified :: _ => 0
  | .tick _ :: rest => 1 + claimedPollerCount rest

/-- Claim C9 counterexample: two ticks, both sends succeed, and no
successful update occurs anywhere (the poller has no input that could
carry one): the code enqueues once and never again, while the claim
predicts an enqueue at each of the two ticks. -/
theorem c9_counterexample :
    periodic_url_checker [.tick true, .tick true] = 1 ∧
    claimedPollerCount [.tick true, .tick true] = 2 := by
  constructor
  · decide
  · decide

theorem pollerRun_done_zero : ∀ events : List PollerEvent, pollerRun true events = 0 := by
  intro events
  induction events with
  | nil => rfl
  | cons e rest ih =>
      cases e with
      | notified => rfl
      | tick sendOk => simpa [pollerRun] using ih

/-- Claim C9 (amended): the poller enqueues a URL request at the first
cadence tick (when not yet terminated and the channel accepts it) and
then NEVER again for its whole lifetime, regardless of whether the
update succeeds or fails - the update_done latch records that a request
was successfully SENT, not that an update succeeded.  It terminates when
the termination notifier fires (enqueueing nothing further) or when the
send fails. -/
theorem c9_poller_amended :
    (∀ events : List PollerEvent, periodic_url_checker (.notified :: events) = 0) ∧
    (∀ rest : List PollerEvent, periodic_url_checker (.tick true :: rest) = 1) ∧
    (∀ events : List PollerEvent, periodic_url_checker events ≤ 1) := by
  refine ⟨fun events => rfl, ?_, ?_⟩
  · intro rest
    simp [periodic_url_checker, pollerRun, pollerRun_done_zero]
  · intro events
    cases events with
    | nil => exact Nat.zero_le 1
    | cons e rest =>
        cases e with
        | notified => exact Nat.zero_le 1
        | tick sendOk =>
            cases sendOk with
            | true =>
                simp [periodic_url_checker, pollerRun, pollerRun_done_zero]
            | false =>
                simp [periodic_url_checker, pollerRun]

end Embuer
